import Mathlib

/-!
Verification of the room/command relay core of `src/relay_server.py`.

The server keeps one process-wide dict `rooms` mapping a room code to a
room record `{"commands": [...]}` and exposes four handlers:

* `host_session` : generates a code (`str(uuid.uuid4())[:4]`), stores an
  empty room under it, returns `{"room_code": code}`;
* `send_command` : 404 if the code is unknown, else appends
  `request.json["command"]` to the room's command list and returns
  `{"status": "ok"}`;
* `receive_command` : 404 if the code is unknown, else returns the room's
  command list and resets it to `[]`;
* `join_room` : 404 if the code is unknown, else returns
  `{"status": "joined", "room_code": code}` without touching state.

The embedding below models the dict as an insertion-ordered association
list with unique keys (Python dict semantics), identifier generation as an
input stream of codes, and an uncaught Python `KeyError` as an explicit
outcome constructor.
-/

namespace RelayServer

/-- Room codes are opaque strings (the 4-character truncation of a UUID in
the source); the generator is modelled as an input to `host_session`. -/
abbrev RoomCode := String

/-- Commands are opaque payloads (the value of the `command` key of the
request body); the relay never inspects them, so strings suffice. -/
abbrev Cmd := String

/-- A room record as stored in the `rooms` dict: `{"commands": [...]}`. -/
structure Room where
  commands : List Cmd
deriving DecidableEq, Repr

/-- The process-wide `rooms` dict, as an insertion-ordered association list
whose keys are unique (the shape Python dict operations preserve). -/
abbrev Registry := List (RoomCode × Room)

/-- Dict membership and lookup: `rooms[code]` / `code in rooms`. -/
def lookupRoom : Registry → RoomCode → Option Room
  | [], _ => none
  | (k, r) :: rest, code => if k = code then some r else lookupRoom rest code

/-- Dict assignment `rooms[code] = room`: overwrite in place when the key
exists, append a fresh entry otherwise. -/
def dictSet : Registry → RoomCode → Room → Registry
  | [], code, room => [(code, room)]
  | (k, r) :: rest, code, room =>
    if k = code then (code, room) :: rest else (k, r) :: dictSet rest code room

/-- A JSON object request body, restricted to the string-to-command entries
the handlers read. -/
abbrev JsonBody := List (String × Cmd)

/-- Key lookup `data[key]` on a request body, as an option: `none` means
Python would raise `KeyError`. -/
def bodyGet : JsonBody → String → Option Cmd
  | [], _ => none
  | (k, v) :: rest, key => if k = key then some v else bodyGet rest key

/-- Response of the `/host` handler: `jsonify({"room_code": code})`. -/
inductive HostResp
  | roomCode (code : RoomCode)
deriving DecidableEq, Repr

/-- Response of the `/send` handler. `notFound err` is
`(jsonify({"error": err}), 404)`; `ok` is `jsonify({"status": "ok"})`;
`keyError key` is an uncaught Python `KeyError(key)` escaping the handler
before any state change. -/
inductive SendResp
  | notFound (err : String)
  | ok
  | keyError (key : String)
deriving DecidableEq, Repr

/-- Response of the `/receive` handler. `notFound err` is
`(jsonify({"error": err}), 404)`; `commands cs` is
`jsonify({"commands": cs})`. -/
inductive RecvResp
  | notFound (err : String)
  | commands (cmds : List Cmd)
deriving DecidableEq, Repr

/-- Response of the `/join` handler. `notFound err` is
`(jsonify({"error": err}), 404)`; `joined st code` is
`jsonify({"status": st, "room_code": code})`. -/
inductive JoinResp
  | notFound (err : String)
  | joined (status : String) (code : RoomCode)
deriving DecidableEq, Repr

/-- HTTP status attached to a `/send` response; `none` for the uncaught
exception, which produces no response from the handler itself. -/
def SendResp.httpStatus : SendResp → Option Nat
  | .notFound _ => some 404
  | .ok => some 200
  | .keyError _ => none

/-- HTTP status attached to a `/receive` response. -/
def RecvResp.httpStatus : RecvResp → Option Nat
  | .notFound _ => some 404
  | .commands _ => some 200

/-- HTTP status attached to a `/join` response. -/
def JoinResp.httpStatus : JoinResp → Option Nat
  | .notFound _ => some 404
  | .joined _ _ => some 200

/-- Handler `host_session`: with `code` the value the generator produced,
performs `rooms[code] = {"commands": []}` and returns the code. There is
no membership check before the assignment. -/
def host_session (code : RoomCode) (s : Registry) : Registry × HostResp :=
  (dictSet s code ⟨[]⟩, .roomCode code)

/-- Handler `send_command`: 404 when `code not in rooms`; otherwise reads
`data["command"]` (raising `KeyError` when absent, before any mutation) and
appends it to `rooms[code]["commands"]`. -/
def send_command (s : Registry) (code : RoomCode) (body : JsonBody) :
    Registry × SendResp :=
  match lookupRoom s code with
  | none => (s, .notFound "Room not found")
  | some room =>
    match bodyGet body "command" with
    | none => (s, .keyError "command")
    | some c => (dictSet s code ⟨room.commands ++ [c]⟩, .ok)

/-- Handler `receive_command`: 404 when `code not in rooms`; otherwise
returns the queued commands and resets `rooms[code]["commands"]` to `[]`. -/
def receive_command (s : Registry) (code : RoomCode) : Registry × RecvResp :=
  match lookupRoom s code with
  | none => (s, .notFound "Room not found")
  | some room => (dictSet s code ⟨[]⟩, .commands room.commands)

/-- Handler `join_room`: 404 when `code not in rooms`; otherwise an
acknowledgement with no state change. -/
def join_room (s : Registry) (code : RoomCode) : Registry × JoinResp :=
  match lookupRoom s code with
  | none => (s, .notFound "Room not found")
  | some _ => (s, .joined "joined" code)

/-- One inbound request, for reasoning about arbitrary interleavings; the
host constructor carries the code the generator produced for that call. -/
inductive Op
  | host (id : RoomCode)
  | send (code : RoomCode) (body : JsonBody)
  | receive (code : RoomCode)
  | join (code : RoomCode)

/-- State transition of a single request (response discarded). -/
def stepOp (s : Registry) : Op → Registry
  | .host id => (host_session id s).1
  | .send code body => (send_command s code body).1
  | .receive code => (receive_command s code).1
  | .join code => (join_room s code).1

/-- State after serving a sequence of requests. -/
def runOps (s : Registry) (ops : List Op) : Registry := ops.foldl stepOp s

/-- A sequence of `host_session` calls whose generator draws, in order, the
codes in `ids`; returns the final registry and the returned codes. -/
def hostSeq (ids : List RoomCode) (s : Registry) : Registry × List RoomCode :=
  match ids with
  | [] => (s, [])
  | id :: rest =>
    let s1 := (host_session id s).1
    let p := hostSeq rest s1
    (p.1, id :: p.2)

/-- A single `/send` carrying the well-formed body `{"command": c}`. -/
def sendOne (s : Registry) (code : RoomCode) (c : Cmd) : Registry × SendResp :=
  send_command s code [("command", c)]

/-- A sequence of well-formed `/send` requests for the commands in `cs`,
collecting the responses. -/
def sendSeq (s : Registry) (code : RoomCode) (cs : List Cmd) :
    Registry × List SendResp :=
  match cs with
  | [] => (s, [])
  | c :: rest =>
    let p1 := sendOne s code c
    let p2 := sendSeq p1.1 code rest
    (p2.1, p1.2 :: p2.2)

/-! Dict lemmas: `dictSet` hits exactly the assigned key, and assignment to
an existing key keeps the dict's size while a fresh key grows it by one. -/

theorem lookup_dictSet_self (s : Registry) (k : RoomCode) (r : Room) :
    lookupRoom (dictSet s k r) k = some r := by
  induction s with
  | nil => simp [dictSet, lookupRoom]
  | cons p rest ih =>
    obtain ⟨k0, r0⟩ := p
    by_cases h : k0 = k <;> simp [dictSet, lookupRoom, h, ih]

theorem lookup_dictSet_ne (s : Registry) (k c : RoomCode) (r : Room)
    (h : c ≠ k) : lookupRoom (dictSet s k r) c = lookupRoom s c := by
  have hkc : ¬k = c := fun hh => h hh.symm
  induction s with
  | nil => simp [dictSet, lookupRoom, hkc]
  | cons p rest ih =>
    obtain ⟨k0, r0⟩ := p
    by_cases hk : k0 = k
    · subst hk
      simp [dictSet, lookupRoom, hkc]
    · simp [dictSet, lookupRoom, hk, ih]

theorem isSome_lookup_dictSet (s : Registry) (k c : RoomCode) (r : Room)
    (h : (lookupRoom s c).isSome) : (lookupRoom (dictSet s k r) c).isSome := by
  by_cases hck : c = k
  · subst hck
    rw [lookup_dictSet_self]
    rfl
  · rw [lookup_dictSet_ne _ _ _ _ hck]
    exact h

theorem length_dictSet_mem (s : Registry) (k : RoomCode) (r : Room)
    (h : (lookupRoom s k).isSome) : (dictSet s k r).length = s.length := by
  induction s with
  | nil => simp [lookupRoom] at h
  | cons p rest ih =>
    obtain ⟨k0, r0⟩ := p
    by_cases hk : k0 = k
    · simp [dictSet, hk]
    · simp only [lookupRoom, if_neg hk] at h
      simp [dictSet, hk, ih h]

theorem length_dictSet_new (s : Registry) (k : RoomCode) (r : Room)
    (h : lookupRoom s k = none) : (dictSet s k r).length = s.length + 1 := by
  induction s with
  | nil => simp [dictSet]
  | cons p rest ih =>
    obtain ⟨k0, r0⟩ := p
    by_cases hk : k0 = k
    · simp [lookupRoom, hk] at h
    · simp only [lookupRoom, if_neg hk] at h
      simp [dictSet, hk, ih h]

/-- Each response of a well-formed send sequence is `ok`, and the sends
accumulate at the tail of the room's queue, touching no other room. -/
theorem sendSeq_spec (cs : List Cmd) (s : Registry) (code : RoomCode) (r : Room)
    (h : lookupRoom s code = some r) :
    lookupRoom (sendSeq s code cs).1 code = some ⟨r.commands ++ cs⟩ ∧
    (∀ resp ∈ (sendSeq s code cs).2, resp = SendResp.ok) := by
  induction cs generalizing s r with
  | nil =>
    refine ⟨?_, by simp [sendSeq]⟩
    simpa [sendSeq] using h
  | cons c rest ih =>
    have h1 : sendOne s code c = (dictSet s code ⟨r.commands ++ [c]⟩, SendResp.ok) := by
      simp [sendOne, send_command, h, bodyGet]
    have h2 := ih (dictSet s code ⟨r.commands ++ [c]⟩) ⟨r.commands ++ [c]⟩
      (lookup_dictSet_self _ _ _)
    simp only [sendSeq, h1]
    constructor
    · simpa [List.append_assoc] using h2.1
    · intro resp hresp
      rcases List.mem_cons.mp hresp with hr | hr
      · exact hr
      · exact h2.2 resp hr

/-- C1 as stated fails on the code: when the identifier generator draws a
code already in use, `host_session` assigns over the live room (discarding
its queued commands), returns the non-fresh identifier, and leaves the
registry size unchanged — there is no collision check, regeneration or
retry. Concretely: host draws `a1b2`, a command is queued, and a second
host call also draws `a1b2`. -/
theorem C1_counterexample :
    lookupRoom (sendOne (host_session "a1b2" []).1 "a1b2" "move_left").1 "a1b2" =
      some ⟨["move_left"]⟩ ∧
    (host_session "a1b2"
        (sendOne (host_session "a1b2" []).1 "a1b2" "move_left").1).2 =
      HostResp.roomCode "a1b2" ∧
    (host_session "a1b2"
        (sendOne (host_session "a1b2" []).1 "a1b2" "move_left").1).1.length =
      (sendOne (host_session "a1b2" []).1 "a1b2" "move_left").1.length ∧
    lookupRoom (host_session "a1b2"
        (sendOne (host_session "a1b2" []).1 "a1b2" "move_left").1).1 "a1b2" =
      some ⟨[]⟩ := by decide

/-- C1 amended: every `host_session` call succeeds and returns the code the
generator drew, and afterwards that code maps to a fresh empty room; the
registry size grows by one exactly when the drawn code was not already a
live room, and is unchanged on a collision, where the existing room is
overwritten in place (no regeneration or retry); rooms under other codes
are untouched. -/
theorem C1_create_room (id : RoomCode) (s : Registry) :
    (host_session id s).2 = HostResp.roomCode id ∧
    lookupRoom (host_session id s).1 id = some ⟨[]⟩ ∧
    (host_session id s).1.length =
      (if (lookupRoom s id).isSome then s.length else s.length + 1) ∧
    (∀ c, c ≠ id → lookupRoom (host_session id s).1 c = lookupRoom s c) := by
  refine ⟨rfl, lookup_dictSet_self _ _ _, ?_,
    fun c hc => lookup_dictSet_ne _ _ _ _ hc⟩
  by_cases h : (lookupRoom s id).isSome
  · simp [host_session, h, length_dictSet_mem _ _ _ h]
  · rw [if_neg h]
    exact length_dictSet_new _ _ _ (Option.not_isSome_iff_eq_none.mp h)

/-- Witness for C1 at a concrete input. -/
theorem C1_create_room_witness :
    lookupRoom (host_session "a1b2" []).1 "a1b2" = some ⟨[]⟩ :=
  (C1_create_room "a1b2" []).2.1

/-- C2: starting from a room whose queue is empty (as after creation or
after any drain), a sequence of well-formed sends of `cs` all answer `ok`,
the next receive drains exactly `cs` in append order, and an immediately
following receive on the same room drains nothing. -/
theorem C2_fifo_exactly_once_drain (s : Registry) (code : RoomCode) (cs : List Cmd)
    (h : lookupRoom s code = some ⟨[]⟩) :
    (∀ resp ∈ (sendSeq s code cs).2, resp = SendResp.ok) ∧
    (receive_command (sendSeq s code cs).1 code).2 = RecvResp.commands cs ∧
    (receive_command (receive_command (sendSeq s code cs).1 code).1 code).2 =
      RecvResp.commands [] := by
  obtain ⟨h1, h2⟩ := sendSeq_spec cs s code ⟨[]⟩ h
  refine ⟨h2, ?_, ?_⟩
  · simp [receive_command, h1]
  · simp [receive_command, h1, lookup_dictSet_self]

/-- Witness for C2 at a concrete input: the spec's own example scenario. -/
theorem C2_fifo_exactly_once_drain_witness :
    (receive_command
        (sendSeq [("a1b2", (⟨[]⟩ : Room))] "a1b2" ["move_left", "jump"]).1
        "a1b2").2 = RecvResp.commands ["move_left", "jump"] :=
  (C2_fifo_exactly_once_drain [("a1b2", ⟨[]⟩)] "a1b2" ["move_left", "jump"]
    (by decide)).2.1

/-- C3: against a code absent from the registry, join, send and receive all
answer the `Room not found` error with HTTP status 404 and return the
registry unchanged, so every room's queue is untouched and nothing silently
succeeds. -/
theorem C3_not_found_ops (s : Registry) (code : RoomCode) (body : JsonBody)
    (h : lookupRoom s code = none) :
    join_room s code = (s, JoinResp.notFound "Room not found") ∧
    send_command s code body = (s, SendResp.notFound "Room not found") ∧
    receive_command s code = (s, RecvResp.notFound "Room not found") ∧
    (join_room s code).2.httpStatus = some 404 ∧
    (send_command s code body).2.httpStatus = some 404 ∧
    (receive_command s code).2.httpStatus = some 404 := by
  simp [join_room, send_command, receive_command, h,
    JoinResp.httpStatus, SendResp.httpStatus, RecvResp.httpStatus]

/-- Witness for C3 at a concrete input: the spec's `zz99` example. -/
theorem C3_not_found_ops_witness :
    receive_command [("a1b2", (⟨[]⟩ : Room))] "zz99" =
      ([("a1b2", ⟨[]⟩)], RecvResp.notFound "Room not found") :=
  (C3_not_found_ops [("a1b2", ⟨[]⟩)] "zz99" [] (by decide)).2.2.1

/-- C4: a send addressed to room `a` leaves a distinct room `b` exactly as
it was, and the subsequent receive on `b` drains only `b`'s own prior
queue, so a command absent from that queue never shows up there. -/
theorem C4_send_isolation (s : Registry) (a b : RoomCode) (body : JsonBody)
    (rb : Room) (hab : a ≠ b) (hb : lookupRoom s b = some rb) :
    lookupRoom (send_command s a body).1 b = some rb ∧
    (receive_command (send_command s a body).1 b).2 =
      RecvResp.commands rb.commands ∧
    (∀ c, c ∉ rb.commands →
      ∃ cs, (receive_command (send_command s a body).1 b).2 =
          RecvResp.commands cs ∧ c ∉ cs) := by
  have hkey : lookupRoom (send_command s a body).1 b = some rb := by
    unfold send_command
    cases hA : lookupRoom s a with
    | none => simpa using hb
    | some ra =>
      cases hB : bodyGet body "command" with
      | none => simpa using hb
      | some c =>
        simpa [lookup_dictSet_ne _ _ _ _ (Ne.symm hab)] using hb
  refine ⟨hkey, by simp [receive_command, hkey], fun c hc => ?_⟩
  exact ⟨rb.commands, by simp [receive_command, hkey], hc⟩

/-- Witness for C4 at a concrete input. -/
theorem C4_send_isolation_witness :
    lookupRoom
      (send_command [("a1b2", (⟨[]⟩ : Room)), ("zz99", (⟨["jump"]⟩ : Room))]
        "a1b2" [("command", "move_left")]).1 "zz99" = some ⟨["jump"]⟩ :=
  (C4_send_isolation [("a1b2", ⟨[]⟩), ("zz99", ⟨["jump"]⟩)] "a1b2" "zz99"
    [("command", "move_left")] ⟨["jump"]⟩ (by decide) (by decide)).1

/-- No request ever removes a registered code from the `rooms` dict: the
four handlers only ever assign into the dict, never delete from it. -/
theorem isSome_lookup_stepOp (s : Registry) (op : Op) (code : RoomCode)
    (h : (lookupRoom s code).isSome) :
    (lookupRoom (stepOp s op) code).isSome := by
  cases op with
  | host id => exact isSome_lookup_dictSet _ _ _ _ h
  | send c body =>
    show (lookupRoom (send_command s c body).1 code).isSome
    unfold send_command
    cases hA : lookupRoom s c with
    | none => exact h
    | some room =>
      cases hB : bodyGet body "command" with
      | none => exact h
      | some cmd => exact isSome_lookup_dictSet _ _ _ _ h
  | receive c =>
    show (lookupRoom (receive_command s c).1 code).isSome
    unfold receive_command
    cases hA : lookupRoom s c with
    | none => exact h
    | some room => exact isSome_lookup_dictSet _ _ _ _ h
  | join c =>
    show (lookupRoom (join_room s c).1 code).isSome
    unfold join_room
    cases hA : lookupRoom s c with
    | none => exact h
    | some room => exact h

theorem isSome_lookup_runOps (ops : List Op) (s : Registry) (code : RoomCode)
    (h : (lookupRoom s code).isSome) :
    (lookupRoom (runOps s ops) code).isSome := by
  induction ops generalizing s with
  | nil => exact h
  | cons op rest ih => exact ih _ (isSome_lookup_stepOp _ _ _ h)

/-- C5 as stated fails on the code: there is no idle-expiry sweep, lazy
check, timestamp, or removal of any kind. Concretely: room `a1b2` is
created and then sees no activity at all while six other requests are
served (standing in for an arbitrarily long idle period), yet a join on
`a1b2` still succeeds instead of answering `NotFound`. -/
theorem C5_counterexample :
    (join_room
        (runOps (host_session "a1b2" []).1
          [Op.join "zz99", Op.host "zz99", Op.send "zz99" [("command", "x")],
           Op.receive "zz99", Op.join "zz99", Op.receive "zz99"]) "a1b2").2 =
      JoinResp.joined "joined" "a1b2" := by decide

/-- C5 amended: the code implements no idle expiry; a room, once present in
the registry, survives every sequence of further requests — however long
and however inactive the room stays — and join, send and receive against
its id keep succeeding (never `Room not found`). -/
theorem C5_no_expiry (s : Registry) (ops : List Op) (code : RoomCode)
    (body : JsonBody) (h : (lookupRoom s code).isSome) :
    (lookupRoom (runOps s ops) code).isSome ∧
    (join_room (runOps s ops) code).2 = JoinResp.joined "joined" code ∧
    (receive_command (runOps s ops) code).2.httpStatus = some 200 ∧
    (send_command (runOps s ops) code body).2 ≠
      SendResp.notFound "Room not found" := by
  have hrun := isSome_lookup_runOps ops s code h
  obtain ⟨r, hr⟩ := Option.isSome_iff_exists.mp hrun
  refine ⟨hrun, by simp [join_room, hr], by simp [receive_command, hr, RecvResp.httpStatus], ?_⟩
  unfold send_command
  rw [hr]
  cases bodyGet body "command" <;> simp

/-- Witness for the amended C5 at a concrete input. -/
theorem C5_no_expiry_witness :
    (join_room
        (runOps [("a1b2", (⟨[]⟩ : Room))]
          [Op.host "zz99", Op.join "zz99", Op.receive "zz99"]) "a1b2").2 =
      JoinResp.joined "joined" "a1b2" :=
  (C5_no_expiry [("a1b2", ⟨[]⟩)] [Op.host "zz99", Op.join "zz99", Op.receive "zz99"]
    "a1b2" [] (by decide)).2.1

/-- C6: receiving on a registered room whose queue is empty answers the
empty command sequence with HTTP status 200 — a success, not an error. -/
theorem C6_drain_empty_is_ok (s : Registry) (code : RoomCode)
    (h : lookupRoom s code = some ⟨[]⟩) :
    (receive_command s code).2 = RecvResp.commands [] ∧
    (receive_command s code).2.httpStatus = some 200 := by
  simp [receive_command, h, RecvResp.httpStatus]

/-- Witness for C6 at a concrete input. -/
theorem C6_drain_empty_is_ok_witness :
    (receive_command [("a1b2", (⟨[]⟩ : Room))] "a1b2").2 =
      RecvResp.commands [] :=
  (C6_drain_empty_is_ok [("a1b2", ⟨[]⟩)] "a1b2" (by decide)).1

/-- C7: joining a registered room answers `{"status": "joined",
"room_code": code}` and returns the registry object itself unchanged, so
the set of rooms and every queue are identical before and after. -/
theorem C7_join_is_pure_ack (s : Registry) (code : RoomCode) (r : Room)
    (h : lookupRoom s code = some r) :
    join_room s code = (s, JoinResp.joined "joined" code) := by
  simp [join_room, h]

/-- Witness for C7 at a concrete input. -/
theorem C7_join_is_pure_ack_witness :
    join_room [("a1b2", (⟨["jump"]⟩ : Room))] "a1b2" =
      ([("a1b2", ⟨["jump"]⟩)], JoinResp.joined "joined" "a1b2") :=
  C7_join_is_pure_ack [("a1b2", ⟨["jump"]⟩)] "a1b2" ⟨["jump"]⟩ (by decide)

/-- C8: a send to a registered room whose body carries a `command` key
never fails — the error branch is unreachable — and it appends the command
value at the tail of exactly that room's queue, answering `ok`. -/
theorem C8_send_valid_never_fails (s : Registry) (code : RoomCode)
    (body : JsonBody) (r : Room) (c : Cmd)
    (h : lookupRoom s code = some r) (hc : bodyGet body "command" = some c) :
    (send_command s code body).2 = SendResp.ok ∧
    lookupRoom (send_command s code body).1 code = some ⟨r.commands ++ [c]⟩ ∧
    (∀ k, k ≠ code → lookupRoom (send_command s code body).1 k = lookupRoom s k) := by
  have he : send_command s code body =
      (dictSet s code ⟨r.commands ++ [c]⟩, SendResp.ok) := by
    simp [send_command, h, hc]
  rw [he]
  exact ⟨rfl, lookup_dictSet_self _ _ _, fun k hk => lookup_dictSet_ne _ _ _ _ hk⟩

/-- Witness for C8 at a concrete input. -/
theorem C8_send_valid_never_fails_witness :
    lookupRoom (send_command [("a1b2", (⟨["move_left"]⟩ : Room))] "a1b2"
        [("command", "jump")]).1 "a1b2" = some ⟨["move_left", "jump"]⟩ :=
  (C8_send_valid_never_fails [("a1b2", ⟨["move_left"]⟩)] "a1b2"
    [("command", "jump")] ⟨["move_left"]⟩ "jump" (by decide) (by decide)).2.1

/-- C9: a send to a registered room whose JSON object body lacks the
`command` key escapes with an uncaught `KeyError` — no JSON response, no
HTTP status from the handler — and the registry, hence the room's queue,
is exactly as before: the append never happens. -/
theorem C9_missing_key_raises (s : Registry) (code : RoomCode)
    (body : JsonBody) (r : Room)
    (h : lookupRoom s code = some r) (hc : bodyGet body "command" = none) :
    send_command s code body = (s, SendResp.keyError "command") ∧
    (send_command s code body).2.httpStatus = none := by
  simp [send_command, h, hc, SendResp.httpStatus]

/-- Witness for C9 at a concrete input: a body with only a `data` key. -/
theorem C9_missing_key_raises_witness :
    send_command [("a1b2", (⟨["jump"]⟩ : Room))] "a1b2" [("data", "x")] =
      ([("a1b2", ⟨["jump"]⟩)], SendResp.keyError "command") :=
  (C9_missing_key_raises [("a1b2", ⟨["jump"]⟩)] "a1b2" [("data", "x")]
    ⟨["jump"]⟩ (by decide) (by decide)).1

/-- C10: receiving never removes the room itself: after a drain the code
still maps to a (now empty) room, and join, a well-formed send, and a
further receive against the same code all still succeed. -/
theorem C10_drain_keeps_room (s : Registry) (code : RoomCode) (r : Room)
    (h : lookupRoom s code = some r) :
    lookupRoom (receive_command s code).1 code = some ⟨[]⟩ ∧
    (join_room (receive_command s code).1 code).2 =
      JoinResp.joined "joined" code ∧
    (receive_command (receive_command s code).1 code).2 =
      RecvResp.commands [] ∧
    (∀ c, (send_command (receive_command s code).1 code
      [("command", c)]).2 = SendResp.ok) := by
  have he : (receive_command s code).1 = dictSet s code ⟨[]⟩ := by
    simp [receive_command, h]
  rw [he]
  have hl := lookup_dictSet_self s code (⟨[]⟩ : Room)
  refine ⟨hl, by simp [join_room, hl], by simp [receive_command, hl], ?_⟩
  intro c
  simp [send_command, hl, bodyGet]

/-- Witness for C10 at a concrete input. -/
theorem C10_drain_keeps_room_witness :
    lookupRoom (receive_command [("a1b2", (⟨["move_left"]⟩ : Room))] "a1b2").1
      "a1b2" = some ⟨[]⟩ :=
  (C10_drain_keeps_room [("a1b2", ⟨["move_left"]⟩)] "a1b2" ⟨["move_left"]⟩
    (by decide)).1

end RelayServer
